import Mathlib

/-!
Shallow embedding of the Shinmen-Agent chat message pipeline.

Server side (`src/routes/chat.js`, `src/unnamed/part_004` = the
`Conversation` model, `src/middleware/validation.js`): the conversations
table is a list of rows; `Conversation.findById`, `addMessage`,
`updateTitle` mirror the model's SQL queries; `handlePostMessage` mirrors
the `POST /conversations/:id/messages` route handler together with the
`validateChatMessage` middleware that runs in front of it.

Client side (`src/context/ChatContext.tsx`): `chatReducer` mirrors the
React reducer over `ChatState`.

Timestamps are abstract time points (`Nat`); the code stores ISO-8601
strings produced from a wall clock, whose lexicographic order agrees with
time order, and `CURRENT_TIMESTAMP` on the database side.  Fresh message
ids (`crypto.randomUUID()`) and the two clock readings of one request are
passed in as explicit parameters.
-/

namespace Shinmen

/-- Message role, `'user' | 'assistant' | 'system'` in `src/types/index.ts`. -/
inductive Role where
  | user
  | assistant
  | system
deriving DecidableEq, Repr

/-- Attachment (`src/types/index.ts`): tagged record; only the fields the
pipeline moves around are modelled, the tag plus optional payload fields. -/
structure Attachment where
  type : String
  language : Option String := none
  content : Option String := none
  url : Option String := none
deriving DecidableEq, Repr

/-- One chat message as embedded in a conversation row
(`src/unnamed/part_004`, `addMessage`). -/
structure Message where
  id : String
  role : Role
  content : String
  timestamp : Nat
  attachments : List Attachment
deriving DecidableEq, Repr

/-- One row of the `conversations` table (snake_case column names as in the
SQL of `src/unnamed/part_004`). -/
structure ConversationRow where
  id : String
  user_id : String
  title : String
  messages : List Message
  created_at : Nat
  updated_at : Nat
deriving DecidableEq, Repr

/-- The `conversations` table. -/
abbrev Db := List ConversationRow

/-- The `Conversation` class (`src/unnamed/part_004`): camelCase view of a
row, built by the constructor `new Conversation(row)`. -/
structure Conversation where
  id : String
  userId : String
  title : String
  messages : List Message
  createdAt : Nat
  updatedAt : Nat
deriving DecidableEq, Repr

/-- `new Conversation(data)` in `src/unnamed/part_004`. -/
def Conversation.ofRow (r : ConversationRow) : Conversation :=
  { id := r.id
    userId := r.user_id
    title := r.title
    messages := r.messages
    createdAt := r.created_at
    updatedAt := r.updated_at }

/-- `Conversation.findById(id, userId = null)`:
`SELECT * FROM conversations WHERE id = $1` plus, when `userId` is truthy
(JavaScript `if (userId)` — a non-empty string), `AND user_id = $2`.
`rows[0]` of the result, i.e. the first matching row. -/
def Conversation.findById (db : Db) (id : String) (userId : Option String) :
    Option Conversation :=
  match userId with
  | some u =>
    if u == "" then
      (db.find? (fun r => r.id == id)).map Conversation.ofRow
    else
      (db.find? (fun r => r.id == id && r.user_id == u)).map Conversation.ofRow
  | none => (db.find? (fun r => r.id == id)).map Conversation.ofRow

/-- The caller-supplied part of a message (`{ role, content, attachments }`
passed to `conversation.addMessage`). -/
structure MessageInput where
  role : Role
  content : String
  attachments : List Attachment
deriving DecidableEq, Repr

/-- `conversation.addMessage(message)`: build the new message with a fresh
id and the current time, push it onto `this.messages`, then
`UPDATE conversations SET messages = $1, updated_at = CURRENT_TIMESTAMP
WHERE id = $2 RETURNING *` and wrap the returned row.  The update touches
every row whose id matches and the returned conversation is built from
`rows[0]`; `none` models the throwing path where no row is returned. -/
def Conversation.addMessage (c : Conversation) (db : Db) (m : MessageInput)
    (freshId : String) (now : Nat) : Option Conversation × Db :=
  let newMessage : Message :=
    { id := freshId, role := m.role, content := m.content
      timestamp := now, attachments := m.attachments }
  let msgs := c.messages ++ [newMessage]
  let db' := db.map (fun r =>
    if r.id == c.id then { r with messages := msgs, updated_at := now } else r)
  ((db'.find? (fun r => r.id == c.id)).map Conversation.ofRow, db')

/-- `conversation.updateTitle(title)`:
`UPDATE conversations SET title = $1, updated_at = CURRENT_TIMESTAMP
WHERE id = $2 RETURNING *`. -/
def Conversation.updateTitle (c : Conversation) (db : Db) (title : String)
    (now : Nat) : Option Conversation × Db :=
  let db' := db.map (fun r =>
    if r.id == c.id then { r with title := title, updated_at := now } else r)
  ((db'.find? (fun r => r.id == c.id)).map Conversation.ofRow, db')

/-- `ConversationSummary` (`src/types/index.ts`, also the shape built by
`conversation.getSummary()`). -/
structure ConversationSummary where
  id : String
  title : String
  messageCount : Nat
  lastMessage : Option Message
  createdAt : Nat
  updatedAt : Nat
deriving DecidableEq, Repr

/-- `conversation.getSummary()` in `src/unnamed/part_004`. -/
def Conversation.getSummary (c : Conversation) : ConversationSummary :=
  { id := c.id
    title := c.title
    messageCount := c.messages.length
    lastMessage := c.messages.getLast?
    createdAt := c.createdAt
    updatedAt := c.updatedAt }

/-- JavaScript `String.prototype.trim()`: strip leading and trailing
whitespace (the sanitizer `body('message').trim()` applies this to
`req.body.message` before validation and before the handler reads it). -/
def jsTrim (s : String) : String :=
  String.mk (((s.toList.dropWhile Char.isWhitespace).reverse.dropWhile
    Char.isWhitespace).reverse)

/-- `validateChatMessage` (`src/middleware/validation.js`): after the trim
sanitizer, `isLength({ min: 1, max: 10000 })` on the message text. -/
def chatMessageValid (text : String) : Bool :=
  1 ≤ (jsTrim text).length && (jsTrim text).length ≤ 10000

/-- The Response Generator's outcome as observed by the route handler:
`generateAIResponse` either resolves with `{ content, attachments }` or
rejects (`src/utils/aiService.js`). -/
structure AiResponse where
  content : String
  attachments : List Attachment
deriving DecidableEq, Repr

/-- Outcome of one `generateAIResponse` call: success or a thrown error. -/
abbrev GenOutcome := Except String AiResponse

/-- One `io.to(room).emit(event, payload)` call observable during the
request (`src/routes/chat.js`). -/
structure BroadcastEvent where
  room : String
  event : String
  conversationId : String
  message : Option Message
deriving DecidableEq, Repr

/-- The fixed fallback apology text appended when the generator fails
(`src/routes/chat.js`, `aiError` catch block). -/
def fallbackText : String :=
  "I apologize, but I encountered an error while processing your request. Please try again."

/-- Everything observable from one `POST /conversations/:id/messages`
request: HTTP status, the conversation in the JSON body (if any), the
error string (if any), the socket events emitted, and the database
afterwards. -/
structure HandlerOutput where
  status : Nat
  conversation : Option Conversation
  error : Option String
  events : List BroadcastEvent
  db : Db
deriving DecidableEq, Repr

/-- The `POST /conversations/:id/messages` route (`src/routes/chat.js`)
behind `validateChatMessage`.  `userId` is `req.user.id`, `text` and
`attachments` the request body, `gen` the generator's outcome for this
request, `ioPresent` whether `req.app.get('io')` is set, `uid`/`aid` the
fresh ids minted for the user/assistant messages, `t1`/`t2` the clock at
the two appends.  A store update that returns no row throws: inside the
inner `try` it lands in the `aiError` catch (which appends the fallback),
anywhere else in the outer catch (500). -/
def handlePostMessage (db : Db) (userId convId text : String)
    (attachments : List Attachment) (gen : GenOutcome) (ioPresent : Bool)
    (uid aid : String) (t1 t2 : Nat) : HandlerOutput :=
  if chatMessageValid text then
    let message := jsTrim text
    match Conversation.findById db convId (some userId) with
    | none =>
      { status := 404, conversation := none
        error := some "Conversation not found", events := [], db := db }
    | some conv =>
      match conv.addMessage db ⟨Role.user, message, attachments⟩ uid t1 with
      | (none, db1) =>
        { status := 500, conversation := none
          error := some "Failed to send message", events := [], db := db1 }
      | (some conv1, db1) =>
        let fallbackStep (dbf : Db) : HandlerOutput :=
          match conv1.addMessage dbf ⟨Role.assistant, fallbackText, []⟩ aid t2 with
          | (some conv2, db2) =>
            { status := 200, conversation := some conv2
              error := none, events := [], db := db2 }
          | (none, db2) =>
            { status := 500, conversation := none
              error := some "Failed to send message", events := [], db := db2 }
        match gen with
        | Except.ok resp =>
          match conv1.addMessage db1 ⟨Role.assistant, resp.content, resp.attachments⟩ aid t2 with
          | (some conv2, db2) =>
            let events :=
              if ioPresent then
                [{ room := "user-" ++ userId, event := "message-received"
                   conversationId := conv2.id
                   message := conv2.messages.getLast? : BroadcastEvent }]
              else []
            { status := 200, conversation := some conv2
              error := none, events := events, db := db2 }
          | (none, db2) => fallbackStep db2
        | Except.error _ => fallbackStep db1
  else
    { status := 400, conversation := none
      error := some "Validation failed", events := [], db := db }

/-- Client chat state (`ChatState` in `src/types/index.ts`, held by the
reducer in `src/context/ChatContext.tsx`). -/
structure ChatState where
  conversations : List ConversationSummary
  currentConversation : Option Conversation
  isLoading : Bool
  isTyping : Bool
  error : Option String
deriving DecidableEq, Repr

/-- `ChatAction` (`src/context/ChatContext.tsx`). -/
inductive ChatAction where
  | setLoading (payload : Bool)
  | setTyping (payload : Bool)
  | setConversations (payload : List ConversationSummary)
  | addConversation (payload : ConversationSummary)
  | updateConversation (payload : ConversationSummary)
  | removeConversation (payload : String)
  | setCurrentConversation (payload : Option Conversation)
  | addMessage (conversationId : String) (message : Message)
  | updateCurrentConversation (payload : Conversation)
  | setError (payload : String)
  | clearError
deriving DecidableEq, Repr

/-- `chatReducer` (`src/context/ChatContext.tsx`).  `ADD_MESSAGE` appends
to the open conversation only when `state.currentConversation?.id ===
action.payload.conversationId`; `UPDATE_CONVERSATION` maps over the list
replacing entries whose id matches the payload's. -/
def chatReducer (state : ChatState) (action : ChatAction) : ChatState :=
  match action with
  | ChatAction.setLoading b => { state with isLoading := b }
  | ChatAction.setTyping b => { state with isTyping := b }
  | ChatAction.setConversations l => { state with conversations := l }
  | ChatAction.addConversation c =>
    { state with conversations := c :: state.conversations }
  | ChatAction.updateConversation c =>
    { state with conversations :=
        state.conversations.map (fun conv => if conv.id == c.id then c else conv) }
  | ChatAction.removeConversation id =>
    { state with
      conversations := state.conversations.filter (fun conv => ¬ conv.id == id)
      currentConversation :=
        match state.currentConversation with
        | some cur => if cur.id == id then none else some cur
        | none => none }
  | ChatAction.setCurrentConversation c => { state with currentConversation := c }
  | ChatAction.addMessage convId m =>
    match state.currentConversation with
    | some cur =>
      if cur.id == convId then
        let cur' : Conversation := { cur with messages := cur.messages ++ [m] }
        { state with currentConversation := some cur' }
      else state
    | none => state
  | ChatAction.updateCurrentConversation c =>
    { state with currentConversation := some c }
  | ChatAction.setError e =>
    { state with error := some e, isLoading := false, isTyping := false }
  | ChatAction.clearError => { state with error := none }

/-- The message record that `addMessage` builds from its input, a fresh id
and the clock. -/
def mkMessage (m : MessageInput) (freshId : String) (now : Nat) : Message :=
  { id := freshId, role := m.role, content := m.content
    timestamp := now, attachments := m.attachments }

/-- The row update performed by `addMessage`'s SQL `UPDATE`. -/
def rowWithMessages (msgs : List Message) (now : Nat) (cid : String)
    (row : ConversationRow) : ConversationRow :=
  if row.id == cid then { row with messages := msgs, updated_at := now }
  else row

/-- The user message built in the first `addMessage` of the handler. -/
def userMessageOf (text : String) (attachments : List Attachment)
    (uid : String) (t1 : Nat) : Message :=
  { id := uid, role := Role.user, content := jsTrim text
    timestamp := t1, attachments := attachments }

/-- The assistant message appended by the second `addMessage`: the
generator's reply on success, the fixed fallback on failure. -/
def asstMessageOf (gen : GenOutcome) (aid : String) (t2 : Nat) : Message :=
  match gen with
  | Except.ok resp =>
    { id := aid, role := Role.assistant, content := resp.content
      timestamp := t2, attachments := resp.attachments }
  | Except.error _ =>
    { id := aid, role := Role.assistant, content := fallbackText
      timestamp := t2, attachments := [] }

/-- The events emitted on the handler's success path: one
`message-received` to the owner's room when the generator succeeded and
`io` is set, none otherwise. -/
def successEvents (gen : GenOutcome) (ioPresent : Bool) (userId : String)
    (cid : String) (aid : String) (t2 : Nat) : List BroadcastEvent :=
  match gen with
  | Except.ok _ =>
    if ioPresent then
      [{ room := "user-" ++ userId, event := "message-received"
         conversationId := cid, message := some (asstMessageOf gen aid t2) }]
    else []
  | Except.error _ => []

/-! ## Concrete fixtures

A one-row table owned by `alice` with an empty conversation (the spec's
"empty conversation Demo" scenario), plus small client states, used by the
concrete witnesses and counterexamples below. -/

def exRow : ConversationRow :=
  { id := "c1", user_id := "alice", title := "Demo", messages := []
    created_at := 1, updated_at := 1 }

def exDb : Db := [exRow]

def exConv : Conversation := Conversation.ofRow exRow

def exMsg : Message :=
  { id := "m1", role := Role.assistant, content := "hi", timestamp := 5
    attachments := [] }

def exOpenState : ChatState :=
  { conversations := [], currentConversation := some exConv
    isLoading := false, isTyping := false, error := none }

def exSummaryA : ConversationSummary :=
  { id := "a", title := "A", messageCount := 0, lastMessage := none
    createdAt := 1, updatedAt := 5 }

def exSummaryB : ConversationSummary :=
  { id := "b", title := "B", messageCount := 0, lastMessage := none
    createdAt := 1, updatedAt := 4 }

def exSummaryB2 : ConversationSummary :=
  { id := "b", title := "B", messageCount := 2, lastMessage := none
    createdAt := 1, updatedAt := 9 }

def exListState : ChatState :=
  { conversations := [exSummaryA, exSummaryB], currentConversation := none
    isLoading := false, isTyping := false, error := none }

def exRenamed : Conversation :=
  { exConv with title := "New", updatedAt := 9 }

/-! ## Helper lemmas -/

/-- A row-level update that keeps ids commutes with looking a row up by id. -/
lemma find?_map_of_id (f : ConversationRow → ConversationRow)
    (hf : ∀ r, (f r).id = r.id) (cid : String) :
    ∀ db : Db,
      (db.map f).find? (fun r => r.id == cid) =
        (db.find? (fun r => r.id == cid)).map f := by
  intro db
  induction db with
  | nil => rfl
  | cons r rest ih =>
    by_cases h : r.id == cid
    · have hfr : ((f r).id == cid) = true := by rw [hf r]; exact h
      simp [List.find?_cons, h, hfr]
    · have hfr : ((f r).id == cid) = false := by
        rw [hf r]; exact Bool.of_not_eq_true h
      simp only [List.map_cons, List.find?_cons, hfr, h, Bool.of_not_eq_true h]
      exact ih

/-- Any conversation produced by `findById` comes from a row of the table
with the requested id; when a truthy owner was passed, the row also has
that owner. -/
lemma findById_inv {db : Db} {cid : String} {o : Option String}
    {conv : Conversation} (h : Conversation.findById db cid o = some conv) :
    ∃ r ∈ db, conv = Conversation.ofRow r ∧ r.id = cid ∧
      (∀ u, o = some u → u ≠ "" → r.user_id = u) := by
  cases o with
  | none =>
    simp only [Conversation.findById] at h
    obtain ⟨r, hr, hconv⟩ := Option.map_eq_some'.mp h
    refine ⟨r, List.mem_of_find?_eq_some hr, hconv.symm, ?_, ?_⟩
    · simpa using List.find?_some hr
    · intro u hu; exact absurd hu (by simp)
  | some u =>
    simp only [Conversation.findById] at h
    by_cases hu : (u == "") = true
    · rw [if_pos hu] at h
      obtain ⟨r, hr, hconv⟩ := Option.map_eq_some'.mp h
      refine ⟨r, List.mem_of_find?_eq_some hr, hconv.symm, ?_, ?_⟩
      · simpa using List.find?_some hr
      · intro v hv hne
        injection hv with hv
        have hu' : u = "" := by simpa using hu
        exact absurd (hv ▸ hu') hne
    · rw [if_neg hu] at h
      obtain ⟨r, hr, hconv⟩ := Option.map_eq_some'.mp h
      have hp := List.find?_some hr
      simp only [Bool.and_eq_true, beq_iff_eq] at hp
      refine ⟨r, List.mem_of_find?_eq_some hr, hconv.symm, hp.1, ?_⟩
      intro v hv _
      injection hv with hv
      exact hv ▸ hp.2

/-- Under unique ids, the lookup by id alone finds exactly the given
member row. -/
lemma find?_eq_of_mem_of_nodup {db : Db} {r : ConversationRow}
    (hnd : (db.map ConversationRow.id).Nodup) (hmem : r ∈ db) :
    db.find? (fun x => x.id == r.id) = some r := by
  have hsome : (db.find? (fun x => x.id == r.id)).isSome := by
    rw [List.find?_isSome]
    exact ⟨r, hmem, by simp⟩
  obtain ⟨r', hr'⟩ := Option.isSome_iff_exists.mp hsome
  have hmem' := List.mem_of_find?_eq_some hr'
  have hid : r'.id = r.id := by simpa using List.find?_some hr'
  have := List.inj_on_of_nodup_map hnd hmem' hmem hid
  rw [hr', this]

lemma rowWithMessages_id (msgs : List Message) (now : Nat) (cid : String)
    (row : ConversationRow) :
    (rowWithMessages msgs now cid row).id = row.id := by
  by_cases h : (row.id == cid) = true <;> simp [rowWithMessages, h]

/-- `addMessage` when the row is found: full characterization. -/
lemma addMessage_eq (c : Conversation) (db : Db) (m : MessageInput)
    (freshId : String) (now : Nat) {r : ConversationRow}
    (hr : db.find? (fun x => x.id == c.id) = some r) :
    Conversation.addMessage c db m freshId now =
      (some (Conversation.ofRow
        { r with messages := c.messages ++ [mkMessage m freshId now]
                 updated_at := now }),
       db.map (rowWithMessages (c.messages ++ [mkMessage m freshId now]) now c.id)) := by
  have hrc : (r.id == c.id) = true := by simpa using List.find?_some hr
  show (Option.map Conversation.ofRow
      ((db.map (rowWithMessages (c.messages ++ [mkMessage m freshId now]) now c.id)).find?
        (fun x => x.id == c.id)),
    db.map (rowWithMessages (c.messages ++ [mkMessage m freshId now]) now c.id)) = _
  rw [find?_map_of_id _ (rowWithMessages_id _ _ _) c.id db, hr]
  simp [rowWithMessages, hrc]

/-- Success path of `POST /conversations/:id/messages`: with unique row
ids, valid text and an owner-scoped lookup that resolves, the handler
returns 200 and the conversation with the user and assistant messages
appended, broadcasting only in the generator-success branch. -/
lemma handlePostMessage_success (db : Db) (userId convId text : String)
    (attachments : List Attachment) (gen : GenOutcome) (ioPresent : Bool)
    (uid aid : String) (t1 t2 : Nat) (conv : Conversation)
    (hnd : (db.map ConversationRow.id).Nodup)
    (hv : chatMessageValid text = true)
    (hfind : Conversation.findById db convId (some userId) = some conv) :
    ∃ r ∈ db, conv = Conversation.ofRow r ∧ r.id = convId ∧
      handlePostMessage db userId convId text attachments gen ioPresent uid aid t1 t2 =
        { status := 200
          conversation := some
            { id := r.id, userId := r.user_id, title := r.title
              messages := (r.messages ++ [userMessageOf text attachments uid t1])
                ++ [asstMessageOf gen aid t2]
              createdAt := r.created_at, updatedAt := t2 }
          error := none
          events := successEvents gen ioPresent userId r.id aid t2
          db := (db.map (rowWithMessages
                  (r.messages ++ [userMessageOf text attachments uid t1]) t1 r.id)).map
                (rowWithMessages
                  ((r.messages ++ [userMessageOf text attachments uid t1])
                    ++ [asstMessageOf gen aid t2]) t2 r.id) } := by
  obtain ⟨r, hmem, hconv, hrid, -⟩ := findById_inv hfind
  have hfindr : db.find? (fun x => x.id == r.id) = some r :=
    find?_eq_of_mem_of_nodup hnd hmem
  refine ⟨r, hmem, hconv, hrid, ?_⟩
  subst hconv
  have h1 := addMessage_eq (Conversation.ofRow r) db
    ⟨Role.user, jsTrim text, attachments⟩ uid t1 hfindr
  have hrr : (r.id == r.id) = true := by simp
  have h1find : (db.map (rowWithMessages
      ((Conversation.ofRow r).messages ++
        [mkMessage ⟨Role.user, jsTrim text, attachments⟩ uid t1]) t1
      (Conversation.ofRow r).id)).find? (fun x => x.id == r.id) =
      some { r with
        messages := (Conversation.ofRow r).messages ++
          [mkMessage ⟨Role.user, jsTrim text, attachments⟩ uid t1]
        updated_at := t1 } := by
    rw [find?_map_of_id _ (rowWithMessages_id _ _ _) r.id db, hfindr]
    simp [rowWithMessages, Conversation.ofRow, hrr]
  cases gen with
  | ok resp =>
    have h2 := addMessage_eq
      (Conversation.ofRow { r with
        messages := (Conversation.ofRow r).messages ++
          [mkMessage ⟨Role.user, jsTrim text, attachments⟩ uid t1]
        updated_at := t1 })
      (db.map (rowWithMessages
        ((Conversation.ofRow r).messages ++
          [mkMessage ⟨Role.user, jsTrim text, attachments⟩ uid t1]) t1
        (Conversation.ofRow r).id))
      ⟨Role.assistant, resp.content, resp.attachments⟩ aid t2 h1find
    simp only [handlePostMessage, hv, if_true, hfind]
    rw [h1]
    simp only []
    rw [h2]
    simp [Conversation.ofRow, userMessageOf, asstMessageOf, mkMessage,
      successEvents, List.getLast?_concat]
  | error e =>
    have h2 := addMessage_eq
      (Conversation.ofRow { r with
        messages := (Conversation.ofRow r).messages ++
          [mkMessage ⟨Role.user, jsTrim text, attachments⟩ uid t1]
        updated_at := t1 })
      (db.map (rowWithMessages
        ((Conversation.ofRow r).messages ++
          [mkMessage ⟨Role.user, jsTrim text, attachments⟩ uid t1]) t1
        (Conversation.ofRow r).id))
      ⟨Role.assistant, fallbackText, []⟩ aid t2 h1find
    simp only [handlePostMessage, hv, if_true, hfind]
    rw [h1]
    simp only []
    rw [h2]
    simp [Conversation.ofRow, userMessageOf, asstMessageOf, mkMessage,
      successEvents, List.getLast?_concat]

/-! ## Claim theorems -/

/-- Claim C1: for every valid `submitMessage` call (the conversation
resolves under the caller's owner-scoped lookup and the trimmed text
passes validation), the conversation returned by
`POST /conversations/:id/messages` has a message sequence exactly 2
longer than before the call: the old messages followed by one appended
user message and then one appended assistant message (real or
fallback). -/
theorem submitMessage_appends_two_messages
    (db : Db) (userId convId text : String) (attachments : List Attachment)
    (gen : GenOutcome) (ioPresent : Bool) (uid aid : String) (t1 t2 : Nat)
    (conv : Conversation)
    (hnd : (db.map ConversationRow.id).Nodup)
    (hv : chatMessageValid text = true)
    (hfind : Conversation.findById db convId (some userId) = some conv) :
    ∃ c2 u a,
      (handlePostMessage db userId convId text attachments gen ioPresent
        uid aid t1 t2).status = 200 ∧
      (handlePostMessage db userId convId text attachments gen ioPresent
        uid aid t1 t2).conversation = some c2 ∧
      c2.messages = conv.messages ++ [u, a] ∧
      c2.messages.length = conv.messages.length + 2 ∧
      u.role = Role.user ∧ a.role = Role.assistant := by
  obtain ⟨r, hmem, hconv, hrid, heq⟩ :=
    handlePostMessage_success db userId convId text attachments gen ioPresent
      uid aid t1 t2 conv hnd hv hfind
  rw [heq]
  subst hconv
  refine ⟨_, userMessageOf text attachments uid t1, asstMessageOf gen aid t2,
    rfl, rfl, ?_, ?_, rfl, ?_⟩
  · simp [Conversation.ofRow]
  · simp [Conversation.ofRow]
  · cases gen <;> rfl

/-- Witness for C1 at a concrete input: `alice` posts "Hello" to her empty
conversation and gets back a 200 with the two appended messages. -/
theorem submitMessage_appends_two_messages_witness :
    (((exDb.map ConversationRow.id).Nodup ∧ chatMessageValid "Hello" = true ∧
      Conversation.findById exDb "c1" (some "alice") = some exConv) ∧
    ∃ c2 u a,
      (handlePostMessage exDb "alice" "c1" "Hello" [] (Except.ok ⟨"hi!", []⟩)
        true "u1" "a1" 5 6).status = 200 ∧
      (handlePostMessage exDb "alice" "c1" "Hello" [] (Except.ok ⟨"hi!", []⟩)
        true "u1" "a1" 5 6).conversation = some c2 ∧
      c2.messages = exConv.messages ++ [u, a] ∧
      c2.messages.length = exConv.messages.length + 2 ∧
      u.role = Role.user ∧ a.role = Role.assistant) :=
  ⟨⟨by decide, by decide, by decide⟩,
    submitMessage_appends_two_messages exDb "alice" "c1" "Hello" []
      (Except.ok ⟨"hi!", []⟩) true "u1" "a1" 5 6 exConv
      (by decide) (by decide) (by decide)⟩

/-- Claim C2 counterexample: a concrete submission on which the generator
fails.  The fallback assistant message is appended (the returned
conversation's roles are user then assistant) yet the emitted event list
is empty even though `io` is configured — refuting the claim that a
`message-received` broadcast is emitted whether the generator succeeded
or the fallback was appended. -/
theorem broadcast_fallback_counterexample :
    (handlePostMessage exDb "alice" "c1" "Hello" [] (Except.error "boom")
      true "u1" "a1" 5 6).events = [] ∧
    (handlePostMessage exDb "alice" "c1" "Hello" [] (Except.error "boom")
      true "u1" "a1" 5 6).conversation.map (fun c => c.messages.map Message.role) =
      some [Role.user, Role.assistant] := by
  exact ⟨by decide, by decide⟩

/-- Claim C2 as amended: the `message-received` broadcast — carrying the
conversation id and the newly appended assistant message (the last
message of the returned conversation) and addressed to the owning user's
room — is emitted exactly when the Response Generator succeeded and the
socket server is configured; in the fallback branch no event is
emitted. -/
theorem broadcast_only_on_generator_success
    (db : Db) (userId convId text : String) (attachments : List Attachment)
    (gen : GenOutcome) (ioPresent : Bool) (uid aid : String) (t1 t2 : Nat)
    (conv : Conversation)
    (hnd : (db.map ConversationRow.id).Nodup)
    (hv : chatMessageValid text = true)
    (hfind : Conversation.findById db convId (some userId) = some conv) :
    (∀ resp, gen = Except.ok resp → ioPresent = true →
      ∃ a, (handlePostMessage db userId convId text attachments gen ioPresent
          uid aid t1 t2).events =
        [{ room := "user-" ++ userId, event := "message-received"
           conversationId := convId, message := some a }] ∧
        a.role = Role.assistant ∧
        (handlePostMessage db userId convId text attachments gen ioPresent
          uid aid t1 t2).conversation.map (fun c => c.messages.getLast?) =
          some (some a)) ∧
    (∀ e, gen = Except.error e →
      (handlePostMessage db userId convId text attachments gen ioPresent
        uid aid t1 t2).events = []) := by
  obtain ⟨r, hmem, hconv, hrid, heq⟩ :=
    handlePostMessage_success db userId convId text attachments gen ioPresent
      uid aid t1 t2 conv hnd hv hfind
  constructor
  · intro resp hgen hio
    subst hgen; subst hio
    refine ⟨asstMessageOf (Except.ok resp) aid t2, ?_, rfl, ?_⟩
    · rw [heq]; simp [successEvents, hrid]
    · rw [heq]; simp [List.getLast?_concat]
  · intro e hgen
    subst hgen
    rw [heq]; simp [successEvents]

/-- Witness for the amended C2 at a concrete input: on generator success
with `io` configured exactly one event goes to room `user-alice` carrying
the assistant message. -/
theorem broadcast_only_on_generator_success_witness :
    (((exDb.map ConversationRow.id).Nodup ∧ chatMessageValid "Hello" = true ∧
      Conversation.findById exDb "c1" (some "alice") = some exConv) ∧
    ∃ a, (handlePostMessage exDb "alice" "c1" "Hello" []
        (Except.ok ⟨"hi!", []⟩) true "u1" "a1" 5 6).events =
      [{ room := "user-" ++ "alice", event := "message-received"
         conversationId := "c1", message := some a }] ∧
      a.role = Role.assistant ∧
      (handlePostMessage exDb "alice" "c1" "Hello" []
        (Except.ok ⟨"hi!", []⟩) true "u1" "a1" 5 6).conversation.map
        (fun c => c.messages.getLast?) = some (some a)) :=
  ⟨⟨by decide, by decide, by decide⟩,
    (broadcast_only_on_generator_success exDb "alice" "c1" "Hello" []
      (Except.ok ⟨"hi!", []⟩) true "u1" "a1" 5 6 exConv
      (by decide) (by decide) (by decide)).1 ⟨"hi!", []⟩ rfl rfl⟩

/-- Claim C3 counterexample: dispatching `ADD_MESSAGE` twice with the same
message (same id) for the open conversation leaves two copies of the
message in the open conversation, not exactly one — the reducer's append
is an unconditional `[...messages, message]` with no deduplication by
id. -/
theorem addMessage_duplicate_counterexample :
    (chatReducer (chatReducer exOpenState (ChatAction.addMessage "c1" exMsg))
      (ChatAction.addMessage "c1" exMsg)).currentConversation =
      some { exConv with messages := [exMsg, exMsg] } ∧
    ¬ ((chatReducer (chatReducer exOpenState (ChatAction.addMessage "c1" exMsg))
      (ChatAction.addMessage "c1" exMsg)).currentConversation.map
        (fun c => (c.messages.filter (fun x => x.id == exMsg.id)).length) = some 1) := by
  exact ⟨by decide, by decide⟩

/-- Claim C3 as amended: applying the reducer's `ADD_MESSAGE` for the
currently open conversation twice with the same message appends it twice —
the open conversation ends with two copies and the count of that exact
message grows by 2 (the append is not idempotent and is not keyed by
message id). -/
theorem addMessage_appends_unconditionally
    (s : ChatState) (convId : String) (m : Message) (c : Conversation)
    (hcur : s.currentConversation = some c) (hid : c.id = convId) :
    (chatReducer (chatReducer s (ChatAction.addMessage convId m))
      (ChatAction.addMessage convId m)).currentConversation =
      some { c with messages := (c.messages ++ [m]) ++ [m] } ∧
    ((c.messages ++ [m]) ++ [m]).count m = c.messages.count m + 2 := by
  constructor
  · simp [chatReducer, hcur, hid]
  · simp [List.count_append]

/-- Witness for the amended C3 at a concrete input. -/
theorem addMessage_appends_unconditionally_witness :
    ((exOpenState.currentConversation = some exConv ∧ exConv.id = "c1") ∧
    (chatReducer (chatReducer exOpenState (ChatAction.addMessage "c1" exMsg))
      (ChatAction.addMessage "c1" exMsg)).currentConversation =
      some { exConv with messages := (exConv.messages ++ [exMsg]) ++ [exMsg] } ∧
    ((exConv.messages ++ [exMsg]) ++ [exMsg]).count exMsg =
      exConv.messages.count exMsg + 2) :=
  ⟨⟨by decide, by decide⟩,
    addMessage_appends_unconditionally exOpenState "c1" exMsg exConv
      (by decide) (by decide)⟩

/-- Claim C4: when every row carrying the requested conversation id is
owned by someone other than the caller (and the caller id is truthy, as
`req.user.id` always is), `POST /conversations/:id/messages` answers 404
`Conversation not found` with no conversation content in the response, no
events, and the table unchanged. -/
theorem submitMessage_wrong_owner_notFound
    (db : Db) (userId convId text : String) (attachments : List Attachment)
    (gen : GenOutcome) (ioPresent : Bool) (uid aid : String) (t1 t2 : Nat)
    (hu : userId ≠ "")
    (hv : chatMessageValid text = true)
    (hno : ∀ r ∈ db, r.id = convId → r.user_id ≠ userId) :
    handlePostMessage db userId convId text attachments gen ioPresent uid aid t1 t2 =
      { status := 404, conversation := none
        error := some "Conversation not found", events := [], db := db } := by
  have hfind : Conversation.findById db convId (some userId) = none := by
    simp only [Conversation.findById]
    rw [if_neg (by simpa using hu)]
    have hnone : db.find? (fun r => r.id == convId && r.user_id == userId) = none := by
      rw [List.find?_eq_none]
      intro x hx
      simp only [Bool.and_eq_true, beq_iff_eq, not_and]
      intro h1 h2
      exact hno x hx h1 h2
    rw [hnone]; rfl
  unfold handlePostMessage
  rw [if_pos hv, hfind]

/-- Witness for C4 at a concrete input: `bob` posting to `alice`'s
conversation gets 404 and the table is untouched. -/
theorem submitMessage_wrong_owner_notFound_witness :
    (("bob" ≠ "" ∧ chatMessageValid "Hello" = true ∧
      (∀ r ∈ exDb, r.id = "c1" → r.user_id ≠ "bob")) ∧
    handlePostMessage exDb "bob" "c1" "Hello" [] (Except.ok ⟨"hi!", []⟩)
        true "u1" "a1" 5 6 =
      { status := 404, conversation := none
        error := some "Conversation not found", events := [], db := exDb }) :=
  ⟨⟨by decide, by decide, by decide⟩,
    submitMessage_wrong_owner_notFound exDb "bob" "c1" "Hello" []
      (Except.ok ⟨"hi!", []⟩) true "u1" "a1" 5 6
      (by decide) (by decide) (by decide)⟩

/-- Claim C5: when the Response Generator throws, the appended assistant
message's content is the fixed fallback apology text with an empty
attachment list, and the HTTP call still succeeds (status 200, no error)
returning the updated conversation. -/
theorem submitMessage_generator_failure_fallback
    (db : Db) (userId convId text : String) (attachments : List Attachment)
    (e : String) (ioPresent : Bool) (uid aid : String) (t1 t2 : Nat)
    (conv : Conversation)
    (hnd : (db.map ConversationRow.id).Nodup)
    (hv : chatMessageValid text = true)
    (hfind : Conversation.findById db convId (some userId) = some conv) :
    ∃ c2 a,
      (handlePostMessage db userId convId text attachments (Except.error e)
        ioPresent uid aid t1 t2).status = 200 ∧
      (handlePostMessage db userId convId text attachments (Except.error e)
        ioPresent uid aid t1 t2).error = none ∧
      (handlePostMessage db userId convId text attachments (Except.error e)
        ioPresent uid aid t1 t2).conversation = some c2 ∧
      c2.messages = conv.messages ++ [userMessageOf text attachments uid t1, a] ∧
      c2.messages.getLast? = some a ∧
      a.role = Role.assistant ∧ a.content = fallbackText ∧ a.attachments = [] := by
  obtain ⟨r, hmem, hconv, hrid, heq⟩ :=
    handlePostMessage_success db userId convId text attachments (Except.error e)
      ioPresent uid aid t1 t2 conv hnd hv hfind
  rw [heq]
  subst hconv
  refine ⟨_, asstMessageOf (Except.error e) aid t2,
    rfl, rfl, rfl, ?_, ?_, rfl, rfl, rfl⟩
  · simp [Conversation.ofRow]
  · simp [List.getLast?_concat]

/-- Witness for C5 at a concrete input: a failing generator yields 200
with the apology message appended. -/
theorem submitMessage_generator_failure_fallback_witness :
    (((exDb.map ConversationRow.id).Nodup ∧ chatMessageValid "Hello" = true ∧
      Conversation.findById exDb "c1" (some "alice") = some exConv) ∧
    ∃ c2 a,
      (handlePostMessage exDb "alice" "c1" "Hello" [] (Except.error "boom")
        true "u1" "a1" 5 6).status = 200 ∧
      (handlePostMessage exDb "alice" "c1" "Hello" [] (Except.error "boom")
        true "u1" "a1" 5 6).error = none ∧
      (handlePostMessage exDb "alice" "c1" "Hello" [] (Except.error "boom")
        true "u1" "a1" 5 6).conversation = some c2 ∧
      c2.messages = exConv.messages ++ [userMessageOf "Hello" [] "u1" 5, a] ∧
      c2.messages.getLast? = some a ∧
      a.role = Role.assistant ∧ a.content = fallbackText ∧ a.attachments = []) :=
  ⟨⟨by decide, by decide, by decide⟩,
    submitMessage_generator_failure_fallback exDb "alice" "c1" "Hello" []
      "boom" true "u1" "a1" 5 6 exConv (by decide) (by decide) (by decide)⟩

/-- Claim C6: a request whose text is empty after trimming, or longer than
10000 characters after trimming, is rejected by `validateChatMessage`
with a 400 before the handler runs: no conversation is returned, no event
is emitted, and the conversations table (message sequences and
timestamps) is exactly as before. -/
theorem submitMessage_invalid_text_rejected
    (db : Db) (userId convId text : String) (attachments : List Attachment)
    (gen : GenOutcome) (ioPresent : Bool) (uid aid : String) (t1 t2 : Nat)
    (hbad : (jsTrim text).length = 0 ∨ 10000 < (jsTrim text).length) :
    handlePostMessage db userId convId text attachments gen ioPresent uid aid t1 t2 =
      { status := 400, conversation := none
        error := some "Validation failed", events := [], db := db } := by
  have hv : ¬ chatMessageValid text = true := by
    simp only [chatMessageValid, Bool.and_eq_true, decide_eq_true_eq, not_and]
    cases hbad with
    | inl h => intro h1; omega
    | inr h => intro h1; omega
  unfold handlePostMessage
  rw [if_neg hv]

/-- Witness for C6 at a concrete input: whitespace-only text is rejected
with 400 and the table is unchanged. -/
theorem submitMessage_invalid_text_rejected_witness :
    (((jsTrim "   ").length = 0 ∨ 10000 < (jsTrim "   ").length) ∧
    handlePostMessage exDb "alice" "c1" "   " [] (Except.ok ⟨"hi!", []⟩)
        true "u1" "a1" 5 6 =
      { status := 400, conversation := none
        error := some "Validation failed", events := [], db := exDb }) :=
  ⟨Or.inl (by decide),
    submitMessage_invalid_text_rejected exDb "alice" "c1" "   " []
      (Except.ok ⟨"hi!", []⟩) true "u1" "a1" 5 6 (Or.inl (by decide))⟩

/-- Claim C7 counterexample: a concrete list `[A, B]` where the summary
with id `b` is updated; the resulting list is `[A, B']` — the updated
summary is replaced in place and is not placed at the front of the
list. -/
theorem updateConversation_not_moved_to_front :
    (chatReducer exListState (ChatAction.updateConversation exSummaryB2)).conversations =
      [exSummaryA, exSummaryB2] ∧
    ¬ ((chatReducer exListState
        (ChatAction.updateConversation exSummaryB2)).conversations.head? =
      some exSummaryB2) := by
  exact ⟨by decide, by decide⟩

/-- Claim C7 as amended: a successful rename sets the server-side
conversation's `updatedAt` to the rename time (and the new title), and
the client's `UPDATE_CONVERSATION` replaces the summary whose id matches
in place: the list's sequence of ids is unchanged (no reordering, no
move-to-front), with the updated summary present at its existing
position. -/
theorem rename_bumps_updatedAt_and_replaces_in_place :
    (∀ (db : Db) (c : Conversation) (title : String) (now : Nat)
      (c' : Conversation),
      (Conversation.updateTitle c db title now).1 = some c' →
      c'.updatedAt = now ∧ c'.title = title) ∧
    (∀ (s : ChatState) (sum : ConversationSummary),
      (chatReducer s (ChatAction.updateConversation sum)).conversations.map
        ConversationSummary.id = s.conversations.map ConversationSummary.id) ∧
    (∀ (s : ChatState) (sum c0 : ConversationSummary),
      c0 ∈ s.conversations → c0.id = sum.id →
      sum ∈ (chatReducer s (ChatAction.updateConversation sum)).conversations) := by
  refine ⟨?_, ?_, ?_⟩
  · intro db c title now c' h
    simp only [Conversation.updateTitle] at h
    obtain ⟨y, hy, hc'⟩ := Option.map_eq_some'.mp h
    obtain ⟨row, hrow, hyrow⟩ := List.mem_map.mp (List.mem_of_find?_eq_some hy)
    have hyid : (y.id == c.id) = true := by simpa using List.find?_some hy
    by_cases hr : (row.id == c.id) = true
    · rw [if_pos hr] at hyrow
      rw [← hc', ← hyrow]
      exact ⟨rfl, rfl⟩
    · rw [if_neg hr] at hyrow
      rw [← hyrow] at hyid
      exact absurd hyid hr
  · intro s sum
    simp only [chatReducer]
    rw [List.map_map]
    induction s.conversations with
    | nil => rfl
    | cons a l ih =>
      simp only [List.map_cons, Function.comp_apply]
      rw [ih]
      by_cases h : (a.id == sum.id) = true
      · rw [if_pos h]
        have : a.id = sum.id := by simpa using h
        rw [this]
      · rw [if_neg h]
  · intro s sum c0 hc0 hid
    simp only [chatReducer]
    exact List.mem_map.mpr ⟨c0, hc0, by simp [hid]⟩

/-- Witness for the amended C7 at concrete inputs: renaming bumps
`updatedAt` to 9, and updating summary `b` leaves it at its old position
in the list. -/
theorem rename_bumps_updatedAt_and_replaces_in_place_witness :
    ((Conversation.updateTitle exConv exDb "New" 9).1 = some exRenamed ∧
     exRenamed.updatedAt = 9 ∧ exRenamed.title = "New" ∧
     exSummaryB ∈ exListState.conversations ∧ exSummaryB.id = exSummaryB2.id ∧
     exSummaryB2 ∈ (chatReducer exListState
       (ChatAction.updateConversation exSummaryB2)).conversations) :=
  ⟨by decide,
   ((rename_bumps_updatedAt_and_replaces_in_place).1 exDb exConv "New" 9
     exRenamed (by decide)).1,
   ((rename_bumps_updatedAt_and_replaces_in_place).1 exDb exConv "New" 9
     exRenamed (by decide)).2,
   by decide, by decide,
   (rename_bumps_updatedAt_and_replaces_in_place).2.2 exListState exSummaryB2
     exSummaryB (by decide) (by decide)⟩

/-- Claim C8: within a single valid submission the appended user message
precedes the assistant (or fallback) message in the persisted sequence;
with a non-decreasing clock (existing timestamps ≤ the first append time
≤ the second), the user message's timestamp is ≤ the assistant's and
the whole sequence's timestamps stay monotonically non-decreasing in
sequence order. -/
theorem submitMessage_message_order_and_timestamps
    (db : Db) (userId convId text : String) (attachments : List Attachment)
    (gen : GenOutcome) (ioPresent : Bool) (uid aid : String) (t1 t2 : Nat)
    (conv : Conversation)
    (hnd : (db.map ConversationRow.id).Nodup)
    (hv : chatMessageValid text = true)
    (hfind : Conversation.findById db convId (some userId) = some conv)
    (hmono : conv.messages.Chain' (fun x y => x.timestamp ≤ y.timestamp))
    (hle : ∀ m ∈ conv.messages, m.timestamp ≤ t1)
    (ht : t1 ≤ t2) :
    ∃ c2 u a,
      (handlePostMessage db userId convId text attachments gen ioPresent
        uid aid t1 t2).conversation = some c2 ∧
      c2.messages = conv.messages ++ [u, a] ∧
      u.role = Role.user ∧ a.role = Role.assistant ∧
      u.timestamp = t1 ∧ a.timestamp = t2 ∧ u.timestamp ≤ a.timestamp ∧
      c2.messages.Chain' (fun x y => x.timestamp ≤ y.timestamp) := by
  obtain ⟨r, hmem, hconv, hrid, heq⟩ :=
    handlePostMessage_success db userId convId text attachments gen ioPresent
      uid aid t1 t2 conv hnd hv hfind
  subst hconv
  simp only [Conversation.ofRow] at hmono hle
  rw [heq]
  have hts_a : (asstMessageOf gen aid t2).timestamp = t2 := by
    cases gen <;> rfl
  refine ⟨_, userMessageOf text attachments uid t1, asstMessageOf gen aid t2,
    rfl, ?_, rfl, ?_, rfl, hts_a, ?_, ?_⟩
  · simp [Conversation.ofRow]
  · cases gen <;> rfl
  · show t1 ≤ (asstMessageOf gen aid t2).timestamp
    rw [hts_a]; exact ht
  · show ((r.messages ++ [userMessageOf text attachments uid t1]) ++
      [asstMessageOf gen aid t2]).Chain' (fun x y => x.timestamp ≤ y.timestamp)
    rw [List.chain'_append]
    refine ⟨?_, List.chain'_singleton _, ?_⟩
    · rw [List.chain'_append]
      refine ⟨hmono, List.chain'_singleton _, ?_⟩
      intro x hx y hy
      simp only [List.head?_cons, Option.mem_def, Option.some.injEq] at hy
      subst hy
      exact hle x (List.mem_of_getLast?_eq_some hx)
    · intro x hx y hy
      simp only [List.head?_cons, Option.mem_def, Option.some.injEq] at hy
      subst hy
      rw [Option.mem_def, List.getLast?_concat, Option.some.injEq] at hx
      subst hx
      rw [hts_a]
      exact ht

/-- Witness for C8 at a concrete input: the empty conversation with clock
readings 5 then 6. -/
theorem submitMessage_message_order_and_timestamps_witness :
    (((exDb.map ConversationRow.id).Nodup ∧ chatMessageValid "Hello" = true ∧
      Conversation.findById exDb "c1" (some "alice") = some exConv ∧
      exConv.messages.Chain' (fun x y => x.timestamp ≤ y.timestamp) ∧
      (∀ m ∈ exConv.messages, m.timestamp ≤ 5) ∧ 5 ≤ 6) ∧
    ∃ c2 u a,
      (handlePostMessage exDb "alice" "c1" "Hello" [] (Except.ok ⟨"hi!", []⟩)
        true "u1" "a1" 5 6).conversation = some c2 ∧
      c2.messages = exConv.messages ++ [u, a] ∧
      u.role = Role.user ∧ a.role = Role.assistant ∧
      u.timestamp = 5 ∧ a.timestamp = 6 ∧ u.timestamp ≤ a.timestamp ∧
      c2.messages.Chain' (fun x y => x.timestamp ≤ y.timestamp)) :=
  ⟨⟨by decide, by decide, by decide, by decide, by decide, by decide⟩,
    submitMessage_message_order_and_timestamps exDb "alice" "c1" "Hello" []
      (Except.ok ⟨"hi!", []⟩) true "u1" "a1" 5 6 exConv
      (by decide) (by decide) (by decide) (by decide) (by decide) (by decide)⟩

/-- Claim C9: `Conversation.findById` applies the `AND user_id` ownership
restriction only when a truthy (non-null) owner argument is passed — a
conversation returned under a truthy owner has that owner and the
requested id — while a `none` owner returns the first row with the
requested id regardless of its owner (so any row with the id makes the
unscoped lookup succeed). -/
theorem findById_owner_scoping (db : Db) (id u : String) (hu : u ≠ "") :
    (∀ c, Conversation.findById db id (some u) = some c →
      c.id = id ∧ c.userId = u) ∧
    (∀ c, Conversation.findById db id none = some c → c.id = id) ∧
    ((∃ r ∈ db, r.id = id) → ∃ c, Conversation.findById db id none = some c) := by
  refine ⟨?_, ?_, ?_⟩
  · intro c hc
    obtain ⟨r, hmem, hcr, hrid, hown⟩ := findById_inv hc
    subst hcr
    exact ⟨hrid, hown u rfl hu⟩
  · intro c hc
    obtain ⟨r, hmem, hcr, hrid, -⟩ := findById_inv hc
    subst hcr
    exact hrid
  · rintro ⟨r, hmem, hrid⟩
    simp only [Conversation.findById]
    have hsome : (db.find? (fun x => x.id == id)).isSome := by
      rw [List.find?_isSome]
      exact ⟨r, hmem, by simp [hrid]⟩
    obtain ⟨y, hy⟩ := Option.isSome_iff_exists.mp hsome
    exact ⟨Conversation.ofRow y, by rw [hy]; rfl⟩

/-- Witness for C9 at a concrete input: the table holds `alice`'s
conversation `c1`, and the unscoped (`none` owner) lookup finds it even
though `bob` — the truthy caller used to instantiate the theorem — does
not own it. -/
theorem findById_owner_scoping_witness :
    ("bob" ≠ "" ∧ (∃ r ∈ exDb, r.id = "c1") ∧
      ∃ c, Conversation.findById exDb "c1" none = some c) :=
  ⟨by decide, ⟨exRow, by decide, by decide⟩,
    (findById_owner_scoping exDb "c1" "bob" (by decide)).2.2
      ⟨exRow, by decide, by decide⟩⟩

/-- Claim C10: when no conversation is open, or the open conversation's
id differs from the broadcast payload's conversation id, `ADD_MESSAGE`
returns the state unchanged; and in every case `ADD_MESSAGE` leaves the
conversation list (with its `messageCount` and `lastMessage` fields)
untouched. -/
theorem chatReducer_addMessage_frame (s : ChatState) (convId : String) (m : Message) :
    ((∀ c, s.currentConversation = some c → c.id ≠ convId) →
      chatReducer s (ChatAction.addMessage convId m) = s) ∧
    (chatReducer s (ChatAction.addMessage convId m)).conversations = s.conversations := by
  constructor
  · intro hmiss
    cases hcur : s.currentConversation with
    | none => simp [chatReducer, hcur]
    | some c =>
      have hne : (c.id == convId) = false := by
        simpa using hmiss c hcur
      simp [chatReducer, hcur, hne]
  · cases hcur : s.currentConversation with
    | none => simp [chatReducer, hcur]
    | some c =>
      by_cases h : (c.id == convId) = true
      · simp [chatReducer, hcur, h]
      · simp [chatReducer, hcur, h]

/-- Witness for C10 at a concrete input: a broadcast for a different
conversation id leaves the state (and the list) unchanged. -/
theorem chatReducer_addMessage_frame_witness :
    ((∀ c, exOpenState.currentConversation = some c → c.id ≠ "zzz") ∧
      chatReducer exOpenState (ChatAction.addMessage "zzz" exMsg) = exOpenState ∧
      (chatReducer exOpenState (ChatAction.addMessage "zzz" exMsg)).conversations =
        exOpenState.conversations) :=
  ⟨fun c h => by injection h with h; subst h; decide,
    (chatReducer_addMessage_frame exOpenState "zzz" exMsg).1
      (fun c h => by injection h with h; subst h; decide),
    (chatReducer_addMessage_frame exOpenState "zzz" exMsg).2⟩

end Shinmen
